import Mathlib

/-!
Verification of the `iocium/urlscan` client library (src/urlscanClient.ts).

The client is shallowly embedded: HTTP transport is a function from the
request the client builds to a `FetchResult` (either a network-level
rejection or a `Response` whose JSON body may itself fail to parse).
Each public operation returns an `Outcome` recording the resolved value
(`none` models the TypeScript `void` resolution), the lines written to
the diagnostic channel by `console.error`, and the requests issued.
-/

/-- A JSON value, as produced by `JSON.stringify` / consumed by `response.json()`. -/
inductive Json where
  | null : Json
  | bool : Bool → Json
  | num : Int → Json
  | str : String → Json
  | arr : List Json → Json
  | obj : List (String × Json) → Json

/-- A JavaScript object literal viewed as an ordered list of key/value fields. -/
abbrev JsObject := List (String × Json)

/-- Escape one character the way `JSON.stringify` escapes string contents. -/
def escapeChar (c : Char) : String :=
  if c = '"' then "\\\""
  else if c = '\\' then "\\\\"
  else if c = '\n' then "\\n"
  else if c = '\t' then "\\t"
  else if c = '\r' then "\\r"
  else String.singleton c

/-- Escape a string the way `JSON.stringify` escapes string contents. -/
def escapeString (s : String) : String :=
  String.join (s.toList.map escapeChar)

mutual

/-- `JSON.stringify` on a JSON value (no spacing, insertion order preserved). -/
def Json.stringify : Json → String
  | .null => "null"
  | .bool b => if b then "true" else "false"
  | .num n => toString n
  | .str s => "\"" ++ escapeString s ++ "\""
  | .arr xs => "[" ++ stringifyArr xs ++ "]"
  | .obj fs => "\x7b" ++ stringifyFields fs ++ "\x7d"

/-- Comma-separated serialization of a JSON array's elements. -/
def stringifyArr : List Json → String
  | [] => ""
  | [x] => x.stringify
  | x :: xs => x.stringify ++ "," ++ stringifyArr xs

/-- Comma-separated serialization of a JSON object's fields. -/
def stringifyFields : List (String × Json) → String
  | [] => ""
  | [(k, v)] => "\"" ++ escapeString k ++ "\":" ++ v.stringify
  | (k, v) :: fs => "\"" ++ escapeString k ++ "\":" ++ v.stringify ++ "," ++ stringifyFields fs

end

/-- JavaScript property assignment on an object: replace the value in place
when the key exists (keeping its position), otherwise append the field. -/
def setKey (o : JsObject) (k : String) (v : Json) : JsObject :=
  if o.any (fun p => p.1 = k) then
    o.map (fun p => if p.1 = k then (k, v) else p)
  else
    o ++ [(k, v)]

/-- JavaScript object spread `\x7b ...base, ...extra \x7d`: fields of `extra`
are assigned, in order, on top of `base`. -/
def mergeObj (base extra : JsObject) : JsObject :=
  extra.foldl (fun acc p => setKey acc p.1 p.2) base

/-- Look up a property of a JavaScript object. -/
def lookupKey (o : JsObject) (k : String) : Option Json :=
  (o.find? (fun p => p.1 = k)).map (fun p => p.2)

/-- A caught JavaScript error value: its (possibly absent) `.message`
property and the string rendering of the raw value itself. -/
structure ErrVal where
  message : Option String
  rawRepr : String
deriving Repr, DecidableEq

/-- An HTTP request as assembled by the client and handed to `fetch`. -/
structure Request where
  method : String
  url : String
  headers : List (String × String)
  body : Option String
deriving Repr, DecidableEq

/-- A transport response: the `ok` flag, the numeric status, and the result
of `response.json()` (which may itself reject with an error value). -/
structure Response where
  ok : Bool
  status : Nat
  json : Except ErrVal Json

/-- What awaiting `fetch` yields: a network-level rejection or a response. -/
inductive FetchResult where
  | network : ErrVal → FetchResult
  | response : Response → FetchResult

/-- A transport failure as seen from inside the client's `try` block:
a network rejection, a non-`ok` response, or a JSON-parse rejection. -/
def FetchResult.fails : FetchResult → Bool
  | .network _ => true
  | .response r => !r.ok || (match r.json with | .error _ => true | .ok _ => false)

/-- The observable effect of one client operation: the value the promise
resolves with (`none` models `void`), the `console.error` lines written,
and the requests issued. -/
structure Outcome where
  result : Option Json
  log : List String
  requests : List Request

/-- The client's per-instance state: `apiKey` and `baseURL` fields. -/
structure UrlscanClient where
  apiKey : String
  baseURL : String
deriving Repr, DecidableEq

/-- `new UrlscanClient(apiKey)`: rejects an absent or empty key with
`Error("API key is required.")`, otherwise stores the key and the fixed
base URL. -/
def mkUrlscanClient (apiKey : Option String) : Except String UrlscanClient :=
  match apiKey with
  | none => .error "API key is required."
  | some k =>
    if k = "" then .error "API key is required."
    else .ok { apiKey := k, baseURL := "https://urlscan.io/api/v1/" }

/-- `handleError`: `console.error('Error:', error.message || error)` —
logs the message when it is truthy (a non-empty string), otherwise the
raw error value. -/
def UrlscanClient.handleError (error : ErrVal) : String :=
  match error.message with
  | some m => if m = "" then "Error: " ++ error.rawRepr else "Error: " ++ m
  | none => "Error: " ++ error.rawRepr

/-- The error thrown by `new Error('HTTP error! status: ' + status)`. -/
def httpError (status : Nat) : ErrVal :=
  { message := some ("HTTP error! status: " ++ toString status)
    rawRepr := "Error: HTTP error! status: " ++ toString status }

/-- The `scan` payload `\x7b url, ...options \x7d`. -/
def UrlscanClient.scanPayload (url : String) (options : Option JsObject) : JsObject :=
  mergeObj [("url", Json.str url)] (options.getD [])

/-- The request `scan` hands to `fetch`. -/
def UrlscanClient.scanRequest (c : UrlscanClient) (url : String)
    (options : Option JsObject) : Request :=
  { method := "POST"
    url := c.baseURL ++ "scan"
    headers := [("API-Key", c.apiKey), ("Content-Type", "application/json")]
    body := some (Json.stringify (Json.obj (UrlscanClient.scanPayload url options))) }

/-- `UrlscanClient.scan(url, options?)`: POSTs the merged payload to
`baseURL ++ "scan"`; throws on a non-`ok` response; any caught error is
routed to `handleError` and the promise resolves with no value. -/
def UrlscanClient.scan (c : UrlscanClient) (url : String) (options : Option JsObject)
    (transport : Request → FetchResult) : Outcome :=
  let req := c.scanRequest url options
  match transport req with
  | .network e => { result := none, log := [UrlscanClient.handleError e], requests := [req] }
  | .response r =>
    if r.ok = false then
      { result := none, log := [UrlscanClient.handleError (httpError r.status)], requests := [req] }
    else
      match r.json with
      | .ok j => { result := some j, log := [], requests := [req] }
      | .error e => { result := none, log := [UrlscanClient.handleError e], requests := [req] }

/-- The request `getScan` hands to `fetch`. -/
def UrlscanClient.getScanRequest (c : UrlscanClient) (id : String) : Request :=
  { method := "GET"
    url := c.baseURL ++ "result/" ++ id
    headers := [("API-Key", c.apiKey)]
    body := none }

/-- `UrlscanClient.getScan(id)`: GETs `baseURL ++ "result/" ++ id`; throws on
a non-`ok` response; any caught error is routed to `handleError` and the
promise resolves with no value. -/
def UrlscanClient.getScan (c : UrlscanClient) (id : String)
    (transport : Request → FetchResult) : Outcome :=
  let req := c.getScanRequest id
  match transport req with
  | .network e => { result := none, log := [UrlscanClient.handleError e], requests := [req] }
  | .response r =>
    if r.ok = false then
      { result := none, log := [UrlscanClient.handleError (httpError r.status)], requests := [req] }
    else
      match r.json with
      | .ok j => { result := some j, log := [], requests := [req] }
      | .error e => { result := none, log := [UrlscanClient.handleError e], requests := [req] }

/-- One hexadecimal digit, uppercase, as used by `URLSearchParams`. -/
def hexDigit (n : Nat) : Char :=
  if n < 10 then Char.ofNat (48 + n) else Char.ofNat (55 + n)

/-- `application/x-www-form-urlencoded` encoding of one UTF-8 byte, as done
by `URLSearchParams.toString()`: space becomes `+`; ASCII alphanumerics and
`*`, `-`, `.`, `_` pass through; every other byte becomes `%XX`. -/
def encodeByte (b : UInt8) : String :=
  let n := b.toNat
  if n = 32 then "+"
  else if (48 ≤ n ∧ n ≤ 57) ∨ (65 ≤ n ∧ n ≤ 90) ∨ (97 ≤ n ∧ n ≤ 122)
       ∨ n = 42 ∨ n = 45 ∨ n = 46 ∨ n = 95 then
    String.singleton (Char.ofNat n)
  else
    "%" ++ String.singleton (hexDigit (n / 16)) ++ String.singleton (hexDigit (n % 16))

/-- The UTF-8 bytes of a string (kept as a list so it evaluates in proofs). -/
def utf8Bytes (s : String) : List UInt8 :=
  s.data.flatMap String.utf8EncodeChar

/-- `application/x-www-form-urlencoded` encoding of a string. -/
def formEncode (s : String) : String :=
  String.join ((utf8Bytes s).map encodeByte)

/-- `URLSearchParams.toString()`: the pairs, in insertion order, each
encoded as `key=value` and joined with `&`. -/
def encodeParams (ps : List (String × String)) : String :=
  String.intercalate "&" (ps.map (fun p => formEncode p.1 ++ "=" ++ formEncode p.2))

/-- The `Object.entries(options)` pairs whose value is not `undefined`,
in iteration order (`undefined` is modelled by `none`). -/
def definedEntries (options : Option (List (String × Option String))) :
    List (String × String) :=
  (options.getD []).filterMap (fun p => p.2.map (fun v => (p.1, v)))

/-- The query string `search` builds: `q=<term>` first, then the defined
option pairs appended in iteration order. -/
def UrlscanClient.searchQuery (term : String)
    (options : Option (List (String × Option String))) : String :=
  encodeParams (("q", term) :: definedEntries options)

/-- The request `search` hands to `fetch`. -/
def UrlscanClient.searchRequest (c : UrlscanClient) (term : String)
    (options : Option (List (String × Option String))) : Request :=
  { method := "GET"
    url := c.baseURL ++ "search?" ++ UrlscanClient.searchQuery term options
    headers := [("API-Key", c.apiKey)]
    body := none }

/-- `UrlscanClient.search(term, options?)`: throws `Error("Search term is
required.")` synchronously on an empty term (before any request); otherwise
GETs `baseURL ++ "search?" ++ query`; any error caught inside the `try`
block is routed to `handleError` and the promise resolves with no value. -/
def UrlscanClient.search (c : UrlscanClient) (term : String)
    (options : Option (List (String × Option String)))
    (transport : Request → FetchResult) : Except String Outcome :=
  if term = "" then .error "Search term is required."
  else
    let req := c.searchRequest term options
    match transport req with
    | .network e =>
      .ok { result := none, log := [UrlscanClient.handleError e], requests := [req] }
    | .response r =>
      if r.ok = false then
        .ok { result := none, log := [UrlscanClient.handleError (httpError r.status)],
              requests := [req] }
      else
        match r.json with
        | .ok j => .ok { result := some j, log := [], requests := [req] }
        | .error e =>
          .ok { result := none, log := [UrlscanClient.handleError e], requests := [req] }

/-! ### Helper lemmas -/

theorem httpMessage_ne_empty (S : Nat) : ("HTTP error! status: " ++ toString S) ≠ "" := by
  intro h
  have h2 := congrArg String.length h
  simp [String.length_append] at h2
  exact absurd h2.1 (by decide)

theorem handleError_httpError (S : Nat) :
    UrlscanClient.handleError (httpError S) = "Error: HTTP error! status: " ++ toString S := by
  simp [UrlscanClient.handleError, httpError, httpMessage_ne_empty S]
  rw [← String.append_assoc]
  rfl

theorem mkUrlscanClient_fields (k : String) (c : UrlscanClient)
    (hc : mkUrlscanClient (some k) = .ok c) :
    c.apiKey = k ∧ c.baseURL = "https://urlscan.io/api/v1/" := by
  simp only [mkUrlscanClient] at hc
  by_cases h : k = ""
  · rw [if_pos h] at hc
    simp at hc
  · rw [if_neg h] at hc
    injection hc with h2
    rw [← h2]
    exact ⟨rfl, rfl⟩

/-! ### Claims -/

/-- C2: constructing the client with an absent or empty API key fails with
exactly the message "API key is required."; for any non-empty key the
construction succeeds and stores that key together with the fixed base URL
"https://urlscan.io/api/v1/". -/
theorem constructor_validates_apiKey (k : String) (h : k ≠ "") :
    mkUrlscanClient none = .error "API key is required." ∧
    mkUrlscanClient (some "") = .error "API key is required." ∧
    mkUrlscanClient (some k) =
      .ok { apiKey := k, baseURL := "https://urlscan.io/api/v1/" } := by
  refine ⟨rfl, rfl, ?_⟩
  simp [mkUrlscanClient, h]

theorem constructor_validates_apiKey_witness :
    ("my-key" : String) ≠ "" ∧
    (mkUrlscanClient none = .error "API key is required." ∧
     mkUrlscanClient (some "") = .error "API key is required." ∧
     mkUrlscanClient (some "my-key") =
       .ok { apiKey := "my-key", baseURL := "https://urlscan.io/api/v1/" }) :=
  ⟨by decide, constructor_validates_apiKey "my-key" (by decide)⟩

/-- C3: calling `search` with an empty term fails with exactly the message
"Search term is required.", and the result does not depend on the transport
in any way (no network call is issued). -/
theorem search_empty_term_rejected (c : UrlscanClient)
    (options : Option (List (String × Option String)))
    (t u : Request → FetchResult) :
    c.search "" options t = .error "Search term is required." ∧
    c.search "" options t = c.search "" options u :=
  ⟨rfl, rfl⟩

/-- C10: the raw-value fallback of `handleError` fires for every falsy
`message`, not only an absent one: with an empty-string message the
diagnostic line is "Error: " followed by the raw error value, exactly as
with no message at all. -/
theorem handleError_falsy_message_fallback (raw : String) :
    UrlscanClient.handleError { message := some "", rawRepr := raw } = "Error: " ++ raw ∧
    UrlscanClient.handleError { message := none, rawRepr := raw } = "Error: " ++ raw :=
  ⟨rfl, rfl⟩

/-! ### Request-shape helpers -/

theorem scan_requests_eq (c : UrlscanClient) (url : String) (options : Option JsObject)
    (t : Request → FetchResult) :
    (c.scan url options t).requests = [c.scanRequest url options] := by
  cases hfetch : t (c.scanRequest url options) with
  | network e => simp [UrlscanClient.scan, hfetch]
  | response r =>
    cases hok : r.ok with
    | false => simp [UrlscanClient.scan, hfetch, hok]
    | true =>
      cases hj : r.json with
      | ok j => simp [UrlscanClient.scan, hfetch, hok, hj]
      | error e => simp [UrlscanClient.scan, hfetch, hok, hj]

theorem getScan_requests_eq (c : UrlscanClient) (id : String)
    (t : Request → FetchResult) :
    (c.getScan id t).requests = [c.getScanRequest id] := by
  cases hfetch : t (c.getScanRequest id) with
  | network e => simp [UrlscanClient.getScan, hfetch]
  | response r =>
    cases hok : r.ok with
    | false => simp [UrlscanClient.getScan, hfetch, hok]
    | true =>
      cases hj : r.json with
      | ok j => simp [UrlscanClient.getScan, hfetch, hok, hj]
      | error e => simp [UrlscanClient.getScan, hfetch, hok, hj]

theorem search_ok_shape (c : UrlscanClient) (term : String)
    (options : Option (List (String × Option String)))
    (t : Request → FetchResult) (hterm : ¬ term = "") :
    ∃ o, c.search term options t = .ok o ∧ o.requests = [c.searchRequest term options] := by
  cases hfetch : t (c.searchRequest term options) with
  | network e =>
    refine ⟨{ result := none, log := [UrlscanClient.handleError e],
              requests := [c.searchRequest term options] }, ?_, rfl⟩
    simp [UrlscanClient.search, hterm, hfetch]
  | response r =>
    cases hok : r.ok with
    | false =>
      refine ⟨{ result := none, log := [UrlscanClient.handleError (httpError r.status)],
                requests := [c.searchRequest term options] }, ?_, rfl⟩
      simp [UrlscanClient.search, hterm, hfetch, hok]
    | true =>
      cases hj : r.json with
      | ok j =>
        refine ⟨{ result := some j, log := [],
                  requests := [c.searchRequest term options] }, ?_, rfl⟩
        simp [UrlscanClient.search, hterm, hfetch, hok, hj]
      | error e =>
        refine ⟨{ result := none, log := [UrlscanClient.handleError e],
                  requests := [c.searchRequest term options] }, ?_, rfl⟩
        simp [UrlscanClient.search, hterm, hfetch, hok, hj]

theorem scanRequest_fields (k url : String) (c : UrlscanClient)
    (options : Option JsObject)
    (hc : mkUrlscanClient (some k) = .ok c) :
    c.scanRequest url options =
      { method := "POST"
        url := "https://urlscan.io/api/v1/scan"
        headers := [("API-Key", k), ("Content-Type", "application/json")]
        body := some (Json.stringify (Json.obj (UrlscanClient.scanPayload url options))) } := by
  obtain ⟨hkey, hbase⟩ := mkUrlscanClient_fields k c hc
  unfold UrlscanClient.scanRequest
  rw [hkey, hbase]
  rfl

theorem getScanRequest_fields (k id : String) (c : UrlscanClient)
    (hc : mkUrlscanClient (some k) = .ok c) :
    c.getScanRequest id =
      { method := "GET", url := "https://urlscan.io/api/v1/result/" ++ id,
        headers := [("API-Key", k)], body := none } := by
  obtain ⟨hkey, hbase⟩ := mkUrlscanClient_fields k c hc
  unfold UrlscanClient.getScanRequest
  rw [hkey, hbase]
  rfl

theorem searchRequest_fields (k term : String) (c : UrlscanClient)
    (options : Option (List (String × Option String)))
    (hc : mkUrlscanClient (some k) = .ok c) :
    c.searchRequest term options =
      { method := "GET"
        url := "https://urlscan.io/api/v1/search?" ++
          encodeParams (("q", term) :: definedEntries options)
        headers := [("API-Key", k)], body := none } := by
  obtain ⟨hkey, hbase⟩ := mkUrlscanClient_fields k c hc
  unfold UrlscanClient.searchRequest UrlscanClient.searchQuery
  rw [hkey, hbase]
  rfl

/-- A fixed client, as produced by a successful construction. -/
def theClient : UrlscanClient :=
  { apiKey := "my-key", baseURL := "https://urlscan.io/api/v1/" }

/-- A JSON body used by concrete success runs. -/
def successBody : Json := Json.obj [("success", Json.bool true)]

/-- A transport that answers every request with an ok 200 JSON response. -/
def okTransport : Request → FetchResult :=
  fun _ => .response { ok := true, status := 200, json := .ok successBody }

/-- A transport that answers every request with a non-ok 500 response. -/
def failTransport500 : Request → FetchResult :=
  fun _ => .response { ok := false, status := 500, json := .ok Json.null }

/-- C4: `scan` issues exactly one POST to `baseURL ++ "scan"` (that is,
"https://urlscan.io/api/v1/scan") with the API-Key and Content-Type headers
and, as body, the JSON serialization of `url` merged into `options`; when
the response is ok it resolves with the parsed JSON body verbatim. -/
theorem scan_request_shape (k url : String) (c : UrlscanClient)
    (options : Option JsObject) (t : Request → FetchResult) (r : Response) (j : Json)
    (hc : mkUrlscanClient (some k) = .ok c)
    (ht : t (c.scanRequest url options) = .response r)
    (hok : r.ok = true) (hj : r.json = .ok j) :
    (c.scan url options t).requests =
      [{ method := "POST"
         url := "https://urlscan.io/api/v1/scan"
         headers := [("API-Key", k), ("Content-Type", "application/json")]
         body := some (Json.stringify (Json.obj (UrlscanClient.scanPayload url options))) }] ∧
    (c.scan url options t).result = some j := by
  constructor
  · rw [scan_requests_eq, scanRequest_fields k url c options hc]
  · simp [UrlscanClient.scan, ht, hok, hj]

theorem scan_request_shape_witness :
    mkUrlscanClient (some "my-key") = .ok theClient ∧
    okTransport (theClient.scanRequest "https://example.com" none) =
      .response { ok := true, status := 200, json := .ok successBody } ∧
    (theClient.scan "https://example.com" none okTransport).result = some successBody :=
  ⟨rfl, rfl,
    (scan_request_shape "my-key" "https://example.com" theClient none okTransport
      { ok := true, status := 200, json := .ok successBody } successBody
      rfl rfl rfl rfl).2⟩

/-- C5: on a non-ok transport response with status S, each of the three
operations resolves with no value and writes, as its only diagnostic line,
exactly "Error: HTTP error! status: " followed by S. -/
theorem http_failure_logged (c : UrlscanClient) (url id term : String)
    (options : Option JsObject) (soptions : Option (List (String × Option String)))
    (t : Request → FetchResult) (S : Nat) (b1 b2 b3 : Except ErrVal Json) :
    (t (c.scanRequest url options) = .response { ok := false, status := S, json := b1 } →
      c.scan url options t =
        { result := none, log := ["Error: HTTP error! status: " ++ toString S],
          requests := [c.scanRequest url options] }) ∧
    (t (c.getScanRequest id) = .response { ok := false, status := S, json := b2 } →
      c.getScan id t =
        { result := none, log := ["Error: HTTP error! status: " ++ toString S],
          requests := [c.getScanRequest id] }) ∧
    (¬ term = "" →
      t (c.searchRequest term soptions) = .response { ok := false, status := S, json := b3 } →
      c.search term soptions t =
        .ok { result := none, log := ["Error: HTTP error! status: " ++ toString S],
              requests := [c.searchRequest term soptions] }) := by
  refine ⟨?_, ?_, ?_⟩
  · intro h1
    simp [UrlscanClient.scan, h1, handleError_httpError]
  · intro h2
    simp [UrlscanClient.getScan, h2, handleError_httpError]
  · intro hterm h3
    simp [UrlscanClient.search, hterm, h3, handleError_httpError]

theorem http_failure_logged_witness :
    failTransport500 (theClient.scanRequest "https://example.com" none) =
      .response { ok := false, status := 500, json := .ok Json.null } ∧
    (theClient.scan "https://example.com" none failTransport500).log =
      ["Error: HTTP error! status: 500"] ∧
    (theClient.scan "https://example.com" none failTransport500).result = none := by
  have h := (http_failure_logged theClient "https://example.com" "id1" "example" none none
    failTransport500 500 (.ok Json.null) (.ok Json.null) (.ok Json.null)).1 rfl
  refine ⟨rfl, ?_, ?_⟩
  · rw [h]
    rfl
  · rw [h]

/-- C1: whenever the fetch step fails (network-level rejection, non-ok
response, or JSON-parse rejection), each of the three public operations does
not throw past its own boundary: it invokes the shared error handler (one
diagnostic line) and resolves with no value. -/
theorem failures_swallowed (c : UrlscanClient) (url id term : String)
    (options : Option JsObject) (soptions : Option (List (String × Option String)))
    (t : Request → FetchResult) :
    ((t (c.scanRequest url options)).fails = true →
      (c.scan url options t).result = none ∧ (c.scan url options t).log.length = 1) ∧
    ((t (c.getScanRequest id)).fails = true →
      (c.getScan id t).result = none ∧ (c.getScan id t).log.length = 1) ∧
    (¬ term = "" → (t (c.searchRequest term soptions)).fails = true →
      ∃ o, c.search term soptions t = .ok o ∧ o.result = none ∧ o.log.length = 1) := by
  refine ⟨?_, ?_, ?_⟩
  · intro h1
    cases hfetch : t (c.scanRequest url options) with
    | network e => simp [UrlscanClient.scan, hfetch]
    | response r =>
      cases hok : r.ok with
      | false => simp [UrlscanClient.scan, hfetch, hok]
      | true =>
        cases hj : r.json with
        | ok j =>
          rw [hfetch] at h1
          simp [FetchResult.fails, hok, hj] at h1
        | error e => simp [UrlscanClient.scan, hfetch, hok, hj]
  · intro h2
    cases hfetch : t (c.getScanRequest id) with
    | network e => simp [UrlscanClient.getScan, hfetch]
    | response r =>
      cases hok : r.ok with
      | false => simp [UrlscanClient.getScan, hfetch, hok]
      | true =>
        cases hj : r.json with
        | ok j =>
          rw [hfetch] at h2
          simp [FetchResult.fails, hok, hj] at h2
        | error e => simp [UrlscanClient.getScan, hfetch, hok, hj]
  · intro hterm h3
    cases hfetch : t (c.searchRequest term soptions) with
    | network e =>
      refine ⟨{ result := none, log := [UrlscanClient.handleError e],
                requests := [c.searchRequest term soptions] }, ?_, rfl, rfl⟩
      simp [UrlscanClient.search, hterm, hfetch]
    | response r =>
      cases hok : r.ok with
      | false =>
        refine ⟨{ result := none, log := [UrlscanClient.handleError (httpError r.status)],
                  requests := [c.searchRequest term soptions] }, ?_, rfl, rfl⟩
        simp [UrlscanClient.search, hterm, hfetch, hok]
      | true =>
        cases hj : r.json with
        | ok j =>
          rw [hfetch] at h3
          simp [FetchResult.fails, hok, hj] at h3
        | error e =>
          refine ⟨{ result := none, log := [UrlscanClient.handleError e],
                    requests := [c.searchRequest term soptions] }, ?_, rfl, rfl⟩
          simp [UrlscanClient.search, hterm, hfetch, hok, hj]

theorem failures_swallowed_witness :
    (failTransport500 (theClient.scanRequest "https://example.com" none)).fails = true ∧
    ((theClient.scan "https://example.com" none failTransport500).result = none ∧
     (theClient.scan "https://example.com" none failTransport500).log.length = 1) ∧
    (∃ o, theClient.search "example" none failTransport500 = .ok o ∧
      o.result = none ∧ o.log.length = 1) := by
  have h := failures_swallowed theClient "https://example.com" "id1" "example" none none
    failTransport500
  exact ⟨rfl, h.1 rfl, h.2.2 (by decide) rfl⟩

/-- C6: `getScan` issues exactly one GET to `baseURL ++ "result/" ++ id` with
only the API-Key header and no body; on an ok response it resolves with the
parsed JSON body, and on any failing fetch it resolves with no value after
logging. -/
theorem getScan_request_shape (k id : String) (c : UrlscanClient)
    (t : Request → FetchResult)
    (hc : mkUrlscanClient (some k) = .ok c) :
    (c.getScan id t).requests =
      [{ method := "GET", url := "https://urlscan.io/api/v1/result/" ++ id,
         headers := [("API-Key", k)], body := none }] ∧
    (∀ r j, t (c.getScanRequest id) = .response r → r.ok = true → r.json = .ok j →
        (c.getScan id t).result = some j) ∧
    ((t (c.getScanRequest id)).fails = true →
        (c.getScan id t).result = none ∧ (c.getScan id t).log.length = 1) := by
  refine ⟨?_, ?_, ?_⟩
  · rw [getScan_requests_eq, getScanRequest_fields k id c hc]
  · intro r j ht hok hj
    simp [UrlscanClient.getScan, ht, hok, hj]
  · intro hfail
    cases hfetch : t (c.getScanRequest id) with
    | network e => simp [UrlscanClient.getScan, hfetch]
    | response r =>
      cases hok : r.ok with
      | false => simp [UrlscanClient.getScan, hfetch, hok]
      | true =>
        cases hj : r.json with
        | ok j =>
          rw [hfetch] at hfail
          simp [FetchResult.fails, hok, hj] at hfail
        | error e => simp [UrlscanClient.getScan, hfetch, hok, hj]

theorem getScan_request_shape_witness :
    mkUrlscanClient (some "my-key") = .ok theClient ∧
    (theClient.getScan "scan-id" okTransport).requests =
      [{ method := "GET", url := "https://urlscan.io/api/v1/result/scan-id",
         headers := [("API-Key", "my-key")], body := none }] ∧
    (theClient.getScan "scan-id" okTransport).result = some successBody := by
  have h := getScan_request_shape "my-key" "scan-id" theClient okTransport rfl
  refine ⟨rfl, ?_, ?_⟩
  · rw [h.1]
    rfl
  · exact h.2.1 { ok := true, status := 200, json := .ok successBody } successBody rfl rfl rfl

/-- C7: for a non-empty term, `search` issues exactly one GET to
`baseURL ++ "search?" ++ query` with the API-Key header, where the query is
`q=<term>` followed by each defined option pair in iteration order; pairs
whose value is undefined are omitted. -/
theorem search_request_shape (k term key v : String) (c : UrlscanClient)
    (options : Option (List (String × Option String)))
    (rest : List (String × Option String))
    (t : Request → FetchResult)
    (hc : mkUrlscanClient (some k) = .ok c) (hterm : ¬ term = "") :
    (∃ o, c.search term options t = .ok o ∧
      o.requests = [{
        method := "GET",
        url := "https://urlscan.io/api/v1/search?" ++
          encodeParams (("q", term) :: definedEntries options),
        headers := [("API-Key", k)], body := none }]) ∧
    definedEntries (some ((key, none) :: rest)) = definedEntries (some rest) ∧
    definedEntries (some ((key, some v) :: rest)) =
      (key, v) :: definedEntries (some rest) := by
  refine ⟨?_, ?_, ?_⟩
  · obtain ⟨o, ho, hr⟩ := search_ok_shape c term options t hterm
    exact ⟨o, ho, by rw [hr, searchRequest_fields k term c options hc]⟩
  · simp [definedEntries]
  · simp [definedEntries]

theorem search_request_shape_witness :
    mkUrlscanClient (some "my-key") = .ok theClient ∧
    ¬ ("example" : String) = "" ∧
    (∃ o, theClient.search "example" (some [("size", some "100"), ("search_after", none)])
        okTransport = .ok o ∧
      o.requests = [{
        method := "GET",
        url := "https://urlscan.io/api/v1/search?q=example&size=100",
        headers := [("API-Key", "my-key")], body := none }]) := by
  have h := search_request_shape "my-key" "example" "k0" "v0" theClient
    (some [("size", some "100"), ("search_after", none)]) [] okTransport rfl (by decide)
  obtain ⟨⟨o, ho, hr⟩, h2, h3⟩ := h
  refine ⟨rfl, by decide, o, ho, ?_⟩
  rw [hr]
  rfl

/-- C8: every request issued by any of the three operations carries the
header API-Key with exactly the configured key; the client is a pure value
in this embedding, so its apiKey and baseURL fields are unchanged by every
operation. -/
theorem apiKey_header_on_every_request (c : UrlscanClient) (url id term : String)
    (options : Option JsObject) (soptions : Option (List (String × Option String)))
    (t : Request → FetchResult) :
    (∀ req ∈ (c.scan url options t).requests, ("API-Key", c.apiKey) ∈ req.headers) ∧
    (∀ req ∈ (c.getScan id t).requests, ("API-Key", c.apiKey) ∈ req.headers) ∧
    (∀ o, c.search term soptions t = .ok o →
        ∀ req ∈ o.requests, ("API-Key", c.apiKey) ∈ req.headers) := by
  refine ⟨?_, ?_, ?_⟩
  · rw [scan_requests_eq]
    intro req hreq
    rw [List.mem_singleton] at hreq
    subst hreq
    simp [UrlscanClient.scanRequest]
  · rw [getScan_requests_eq]
    intro req hreq
    rw [List.mem_singleton] at hreq
    subst hreq
    simp [UrlscanClient.getScanRequest]
  · intro o ho req hreq
    by_cases hterm : term = ""
    · rw [hterm] at ho
      simp [UrlscanClient.search] at ho
    · obtain ⟨o2, ho2, hr⟩ := search_ok_shape c term soptions t hterm
      rw [ho] at ho2
      injection ho2 with hoo
      rw [hoo, hr, List.mem_singleton] at hreq
      subst hreq
      simp [UrlscanClient.searchRequest]

theorem apiKey_header_witness :
    theClient.scanRequest "https://example.com" none ∈
      (theClient.scan "https://example.com" none okTransport).requests ∧
    ("API-Key", theClient.apiKey) ∈
      (theClient.scanRequest "https://example.com" none).headers := by
  have h := apiKey_header_on_every_request theClient "https://example.com" "id1" "example"
    none none okTransport
  have hmem : theClient.scanRequest "https://example.com" none ∈
      (theClient.scan "https://example.com" none okTransport).requests := by
    rw [scan_requests_eq]
    exact List.mem_singleton.mpr rfl
  exact ⟨hmem, h.1 _ hmem⟩

/-! ### JavaScript object-merge lemmas (for the scan payload) -/

theorem lookupKey_cons (p : String × Json) (rest : JsObject) (k : String) :
    lookupKey (p :: rest) k = if p.1 = k then some p.2 else lookupKey rest k := by
  by_cases h : p.1 = k
  · simp [lookupKey, List.find?, h]
  · simp [lookupKey, List.find?, h]

theorem lookupKey_map_replace (o : JsObject) (k : String) (v : Json)
    (h : o.any (fun p => p.1 = k) = true) :
    lookupKey (o.map (fun p => if p.1 = k then (k, v) else p)) k = some v := by
  induction o with
  | nil => simp at h
  | cons p rest ih =>
    rw [List.map_cons, lookupKey_cons]
    by_cases hp : p.1 = k
    · simp [hp]
    · rw [if_neg hp, if_neg hp]
      apply ih
      simpa [hp] using h

theorem lookupKey_append_single (o : JsObject) (k : String) (v : Json)
    (h : o.any (fun p => p.1 = k) = false) :
    lookupKey (o ++ [(k, v)]) k = some v := by
  induction o with
  | nil => simp [lookupKey_cons]
  | cons p rest ih =>
    rw [List.cons_append, lookupKey_cons]
    simp only [List.any_cons, Bool.or_eq_false_iff, decide_eq_false_iff_not] at h
    rw [if_neg h.1]
    exact ih h.2

theorem lookupKey_setKey_self (o : JsObject) (k : String) (v : Json) :
    lookupKey (setKey o k v) k = some v := by
  unfold setKey
  split
  next h => exact lookupKey_map_replace o k v h
  next h => exact lookupKey_append_single o k v (Bool.eq_false_iff.mpr h)

theorem lookupKey_map_replace_other (o : JsObject) (k k2 : String) (v : Json)
    (hne : ¬ k2 = k) :
    lookupKey (o.map (fun p => if p.1 = k then (k, v) else p)) k2 = lookupKey o k2 := by
  induction o with
  | nil => rfl
  | cons p rest ih =>
    rw [List.map_cons, lookupKey_cons, lookupKey_cons]
    by_cases hp : p.1 = k
    · have h1 : ¬ k = k2 := fun h => hne h.symm
      have h2 : ¬ p.1 = k2 := by rw [hp]; exact h1
      rw [if_pos hp]
      simp only [if_neg h1, if_neg h2]
      exact ih
    · rw [if_neg hp]
      by_cases hq : p.1 = k2
      · simp [hq]
      · simp only [if_neg hq]
        exact ih

theorem lookupKey_append_single_other (o : JsObject) (k k2 : String) (v : Json)
    (hne : ¬ k2 = k) :
    lookupKey (o ++ [(k, v)]) k2 = lookupKey o k2 := by
  induction o with
  | nil =>
    have h1 : ¬ k = k2 := fun h => hne h.symm
    rw [List.nil_append, lookupKey_cons]
    simp only [if_neg h1]
  | cons p rest ih =>
    rw [List.cons_append, lookupKey_cons, lookupKey_cons]
    by_cases hq : p.1 = k2
    · simp [hq]
    · simp only [if_neg hq]
      exact ih

theorem lookupKey_setKey_other (o : JsObject) (k k2 : String) (v : Json)
    (hne : ¬ k2 = k) :
    lookupKey (setKey o k v) k2 = lookupKey o k2 := by
  unfold setKey
  split
  next h => exact lookupKey_map_replace_other o k k2 v hne
  next h => exact lookupKey_append_single_other o k k2 v hne

theorem mergeObj_cons (base : JsObject) (p : String × Json) (o : JsObject) :
    mergeObj base (p :: o) = mergeObj (setKey base p.1 p.2) o := rfl

theorem lookupKey_eq_none_of_not_mem (o : JsObject) (k : String)
    (h : k ∉ o.map Prod.fst) : lookupKey o k = none := by
  induction o with
  | nil => rfl
  | cons p rest ih =>
    rw [List.map_cons, List.mem_cons] at h
    push_neg at h
    rw [lookupKey_cons, if_neg (fun hh => h.1 hh.symm)]
    exact ih h.2

theorem lookupKey_mergeObj_of_none (o : JsObject) (k : String) :
    lookupKey o k = none →
    ∀ base, lookupKey (mergeObj base o) k = lookupKey base k := by
  induction o with
  | nil => intro _ base; rfl
  | cons p rest ih =>
    intro h base
    rw [lookupKey_cons] at h
    by_cases hp : p.1 = k
    · rw [if_pos hp] at h
      cases h
    · rw [if_neg hp] at h
      rw [mergeObj_cons, ih h]
      exact lookupKey_setKey_other base p.1 k p.2 (fun hh => hp hh.symm)

theorem lookupKey_mergeObj_of_some (o : JsObject) (k : String) (v : Json) :
    (o.map Prod.fst).Nodup → lookupKey o k = some v →
    ∀ base, lookupKey (mergeObj base o) k = some v := by
  induction o with
  | nil => intro _ h; cases h
  | cons p rest ih =>
    intro hnd h base
    rw [List.map_cons, List.nodup_cons] at hnd
    rw [lookupKey_cons] at h
    by_cases hp : p.1 = k
    · rw [if_pos hp] at h
      injection h with hv
      have hrest : lookupKey rest k = none := by
        apply lookupKey_eq_none_of_not_mem
        rw [← hp]
        exact hnd.1
      rw [mergeObj_cons, lookupKey_mergeObj_of_none rest k hrest]
      rw [← hv, ← hp]
      exact lookupKey_setKey_self base p.1 p.2
    · rw [if_neg hp] at h
      rw [mergeObj_cons]
      exact ih hnd.2 h (setKey base p.1 p.2)

/-- C9: because `options` is spread after the `url` field when the scan
payload is formed, an options object that itself carries a `url` property
overrides the `url` argument: the payload's `url` is options' value, and the
request body is its JSON serialization. -/
theorem options_url_overrides (url : String) (opts : JsObject) (v : Json)
    (c : UrlscanClient)
    (hnd : (opts.map Prod.fst).Nodup)
    (h : lookupKey opts "url" = some v) :
    lookupKey (UrlscanClient.scanPayload url (some opts)) "url" = some v ∧
    (c.scanRequest url (some opts)).body =
      some (Json.stringify (Json.obj (UrlscanClient.scanPayload url (some opts)))) := by
  refine ⟨?_, rfl⟩
  unfold UrlscanClient.scanPayload
  simp only [Option.getD_some]
  exact lookupKey_mergeObj_of_some opts "url" v hnd h [("url", Json.str url)]

theorem options_url_overrides_witness :
    ([("url", Json.str "https://override.example")].map Prod.fst).Nodup ∧
    lookupKey [("url", Json.str "https://override.example")] "url" =
      some (Json.str "https://override.example") ∧
    lookupKey (UrlscanClient.scanPayload "https://a.example"
        (some [("url", Json.str "https://override.example")])) "url" =
      some (Json.str "https://override.example") ∧
    (theClient.scanRequest "https://a.example"
        (some [("url", Json.str "https://override.example")])).body =
      some "\x7b\"url\":\"https://override.example\"\x7d" := by
  refine ⟨by simp, rfl, ?_, ?_⟩
  · exact (options_url_overrides "https://a.example"
      [("url", Json.str "https://override.example")]
      (Json.str "https://override.example") theClient (by simp) rfl).1
  · rfl
